import Mathlib

/-!
Verification of the screenshot-analysis core of `mc-cli` (`mccli/analysis.py`).

Shallow embedding conventions:
* Python `bytes` values are `List ℕ` whose entries are byte values; all byte
  arithmetic from the source (`& 0xFF`) is `% 256`.
* Python `float` arithmetic is modelled by exact rational arithmetic (`ℚ`);
  the one use of `** 0.5` (square root, in the histogram Pearson correlation)
  is modelled by `Real.sqrt` over `ℝ`.
* Python exceptions raised by the analysis module are the constructors of
  `PyErr`: `valueError` for the explicit `raise ValueError` sites,
  `zlibError` for a failing `zlib.decompress`, and `indexError` for an
  out-of-range sequence subscript.
* `zlib.decompress` itself is an external codec (spec §4.2); the decoder is
  parameterised by its outcome, an `Except PyErr (List ℕ)`.
-/

namespace McCli

/-- Python exception kinds reachable from `analysis.py`'s decode path. -/
inductive PyErr where
  | valueError
  | zlibError
  | indexError
  deriving DecidableEq, Repr

/-- Python sequence subscript `l[i]`: the value, or an `IndexError`. -/
def pyGet (l : List ℕ) (i : ℕ) : Except PyErr ℕ :=
  match l.get? i with
  | some v => Except.ok v
  | none => Except.error PyErr.indexError

/-- Paeth predictor choice as written in the source (`analysis.py` lines
187-189): `p = left + up - up_left`; `pa, pb, pc = |p-left|, |p-up|,
|p-up_left|`; `left if pa <= pb and pa <= pc else up if pb <= pc else
up_left`. -/
def paethPredictor (left up upLeft : ℕ) : ℕ :=
  let p : ℤ := (left : ℤ) + up - upLeft
  let pa := (p - left).natAbs
  let pb := (p - up).natAbs
  let pc := (p - upLeft).natAbs
  if pa ≤ pb ∧ pa ≤ pc then left else if pb ≤ pc then up else upLeft

/-- Modelled from the spec: the Paeth predictor as §4.3 words it — whichever
of `left`, `up`, `upLeft` minimizes `|p - candidate|`, ties broken in the
fixed order left, then up, then upper-left. -/
def paethSpecChoice (left up upLeft : ℕ) : ℕ :=
  let p : ℤ := (left : ℤ) + up - upLeft
  let pa := (p - left).natAbs
  let pb := (p - up).natAbs
  let pc := (p - upLeft).natAbs
  let m := min pa (min pb pc)
  if pa = m then left else if pb = m then up else upLeft

/-- One step of the in-place per-row defilter loop (`analysis.py` lines
171-190): given the already-reconstructed output prefix `out` (the mutated
part of `row`), the previous reconstructed row `prev`, and the filtered byte
`raw` at index `i`, produce the reconstructed byte.  An unrecognized filter
type falls through every branch of the source's `if/elif` chain, leaving the
byte untouched. -/
def defilterByte (ft bpp : ℕ) (prev out : List ℕ) (i raw : ℕ) : ℕ :=
  if ft = 1 then
    if bpp ≤ i then (raw + out.getD (i - bpp) 0) % 256 else raw
  else if ft = 2 then
    (raw + prev.getD i 0) % 256
  else if ft = 3 then
    let left := if bpp ≤ i then out.getD (i - bpp) 0 else 0
    (raw + (left + prev.getD i 0) / 2) % 256
  else if ft = 4 then
    let left := if bpp ≤ i then out.getD (i - bpp) 0 else 0
    let up := prev.getD i 0
    let upLeft := if bpp ≤ i then prev.getD (i - bpp) 0 else 0
    (raw + paethPredictor left up upLeft) % 256
  else raw

/-- The skeleton of the source's in-place row mutation: position `i` of the
result is produced from the already-built prefix (the bytes the loop has
already overwritten) and the index. -/
def buildRow (g : List ℕ → ℕ → ℕ) (n : ℕ) : List ℕ :=
  (List.range n).foldl (fun out i => out ++ [g out i]) []

/-- Reconstruct a whole scanline from its filtered bytes, mirroring the
source's in-place mutation of `row`: byte `i` reads only reconstructed bytes
at indices `< i` (the source reads `row[i-bpp]` after earlier iterations
wrote it). -/
def defilterRow (ft bpp : ℕ) (prev rawRow : List ℕ) : List ℕ :=
  buildRow (fun out i => defilterByte ft bpp prev out i (rawRow.getD i 0))
    rawRow.length

/-- Pixel extraction for one reconstructed row (`analysis.py` lines 194-196):
`for x in range(width): offset = x*bpp; append (row[offset], row[offset+1],
row[offset+2])`, where each subscript can raise `IndexError`.  The first
argument counts the remaining pixels; `x` is the current pixel index. -/
def extractPixels (row : List ℕ) (bpp : ℕ) : ℕ → ℕ → Except PyErr (List (ℕ × ℕ × ℕ))
  | 0, _ => Except.ok []
  | n + 1, x => do
    let o := x * bpp
    let r ← pyGet row o
    let g ← pyGet row (o + 1)
    let b ← pyGet row (o + 2)
    let rest ← extractPixels row bpp n (x + 1)
    pure ((r, g, b) :: rest)

/-- The scanline loop of `read_png_pixels` (`analysis.py` lines 162-196):
reads the filter byte at `pos` (an `IndexError` past the end), slices the next
`width*bpp` bytes (a Python slice, silently short when the data runs out),
defilters, extracts the row's pixels, and recurses with the reconstructed row
as `prev`.  The first argument is the number of rows left. -/
def processRows (raw : List ℕ) (width bpp : ℕ) :
    ℕ → ℕ → List ℕ → List (ℕ × ℕ × ℕ) → Except PyErr (List (ℕ × ℕ × ℕ))
  | 0, _, _, acc => Except.ok acc
  | h + 1, pos, prev, acc => do
    let ft ← pyGet raw pos
    let rawRow := (raw.drop (pos + 1)).take (width * bpp)
    let row := defilterRow ft bpp prev rawRow
    let px ← extractPixels row bpp width 0
    processRows raw width bpp h (pos + 1 + width * bpp) row (acc ++ px)

/-- Bytes per pixel from the IHDR color type (`analysis.py` line 159):
`3 if color_type == 2 else 4 if color_type == 6 else 1`. -/
def bppOf (colorType : ℕ) : ℕ :=
  if colorType = 2 then 3 else if colorType = 6 then 4 else 1

/-- `read_png_pixels` from the dimension check onward (`analysis.py` lines
151-198), parameterised by the outcome of the external `zlib.decompress`
call: the zero-dimension `ValueError`, decompression, then the scanline loop.
Returns `(pixels, width, height)`. -/
def read_png_pixels (inflated : Except PyErr (List ℕ)) (width height colorType : ℕ) :
    Except PyErr (List (ℕ × ℕ × ℕ) × ℕ × ℕ) := do
  if width = 0 ∨ height = 0 then throw PyErr.valueError
  let raw ← inflated
  let bpp := bppOf colorType
  let px ← processRows raw width bpp height 0 (List.replicate (width * bpp) 0) []
  pure (px, width, height)

/-- Luminance of one pixel (`analysis.py` line 212): `0.299*r + 0.587*g +
0.114*b`, the source's float arithmetic modelled exactly over `ℚ`. -/
def luminance (p : ℕ × ℕ × ℕ) : ℚ :=
  0.299 * p.1 + 0.587 * p.2.1 + 0.114 * p.2.2

/-- Saturation of one pixel (`analysis.py` lines 216-218):
`(max_c - min_c) / max_c if max_c > 0 else 0`. -/
def saturation (p : ℕ × ℕ × ℕ) : ℚ :=
  let maxC := max p.1 (max p.2.1 p.2.2)
  let minC := min p.1 (min p.2.1 p.2.2)
  if 0 < maxC then ((maxC : ℚ) - minC) / maxC else 0

/-- Python `min(list)` over a nonempty list; 0 for `[]` (the source only
reaches it with at least one pixel). -/
def listMin : List ℚ → ℚ
  | [] => 0
  | x :: xs => xs.foldl min x

/-- Python `max(list)` over a nonempty list; 0 for `[]`. -/
def listMax : List ℚ → ℚ
  | [] => 0
  | x :: xs => xs.foldl max x

/-- Histogram bucket of a luminance value (`analysis.py` line 239):
`min(int(b / 16), 15)`.  Luminances are nonnegative, so Python's
truncating `int()` is the floor. -/
def histIdx (b : ℚ) : ℕ :=
  min (⌊b / 16⌋.toNat) 15

/-- The 16-bin histogram loop (`analysis.py` lines 237-239): start from 16
zero buckets and increment bucket `histIdx b` for each luminance. -/
def histogramOf (bs : List ℚ) : List ℕ :=
  bs.foldl (fun h b => h.set (histIdx b) (h.getD (histIdx b) 0 + 1))
    (List.replicate 16 0)

/-- The `ImageMetrics` dataclass.  The source stores
`brightness_std = variance ** 0.5`; since only its square is rational we
carry the variance (`brightness_var`), and every comparison of
`brightness_std` against a nonnegative bound `c` is rendered as
`brightness_var` against `c^2` (equivalent, as squaring is monotone on
nonnegative reals).  `brightness_min`/`brightness_max` come from Python's
truncating `int()`, which is the floor on these nonnegative luminances. -/
structure ImageMetrics where
  brightness_mean : ℚ
  brightness_var : ℚ
  brightness_min : ℤ
  brightness_max : ℤ
  contrast_ratio : ℚ
  color_temp : ℚ
  saturation_mean : ℚ
  histogram : List ℕ
  width : ℕ
  height : ℕ
  path : String
  deriving Repr

/-- `analyze` (`analysis.py` lines 201-253) applied to an already-decoded
pixel list: the per-pixel accumulation, the statistics, and the histogram. -/
def analyze (pixels : List (ℕ × ℕ × ℕ)) (width height : ℕ) (path : String) :
    ImageMetrics :=
  let brightnesses := pixels.map luminance
  let n : ℚ := brightnesses.length
  let brightness_mean := brightnesses.sum / n
  let brightness_var := ((brightnesses.map fun b => (b - brightness_mean) ^ 2).sum) / n
  let bmin : ℤ := ⌊listMin brightnesses⌋
  let bmax : ℤ := ⌊listMax brightnesses⌋
  let red_sum := (pixels.map fun p => p.1).sum
  let blue_sum := (pixels.map fun p => p.2.2).sum
  let total_rb := red_sum + blue_sum
  { brightness_mean := brightness_mean
    brightness_var := brightness_var
    brightness_min := bmin
    brightness_max := bmax
    contrast_ratio := (bmax : ℚ) / max (bmin : ℚ) 1
    color_temp := if 0 < total_rb then (blue_sum : ℚ) / (total_rb : ℚ) else 0.5
    saturation_mean := (pixels.map saturation).sum / n
    histogram := histogramOf brightnesses
    width := width
    height := height
    path := path }

/-- The issue tags emitted by `ImageMetrics.diagnose`; the two clipping tags
carry the percentage interpolated into the source's message string. -/
inductive Issue where
  | UNDEREXPOSED
  | DARK
  | OVEREXPOSED
  | BRIGHT
  | LOW_CONTRAST
  | HIGH_CONTRAST
  | DESATURATED
  | VERY_WARM
  | VERY_COOL
  | SHADOW_CLIPPING (pct : ℚ)
  | HIGHLIGHT_CLIPPING (pct : ℚ)
  deriving DecidableEq, Repr

/-- The exposure `if/elif` chain of `diagnose` (`analysis.py` lines 74-82). -/
def exposureIssues (m : ImageMetrics) : List Issue :=
  if m.brightness_mean < 30 then [Issue.UNDEREXPOSED]
  else if m.brightness_mean < 60 then [Issue.DARK]
  else if 220 < m.brightness_mean then [Issue.OVEREXPOSED]
  else if 180 < m.brightness_mean then [Issue.BRIGHT]
  else []

/-- The two independent contrast checks of `diagnose` (`analysis.py` lines
84-88); `brightness_std < 20` is rendered as `brightness_var < 400`. -/
def contrastIssues (m : ImageMetrics) : List Issue :=
  (if m.brightness_var < 400 then [Issue.LOW_CONTRAST] else []) ++
    (if 100 < m.contrast_ratio then [Issue.HIGH_CONTRAST] else [])

/-- The saturation check of `diagnose` (`analysis.py` lines 90-92). -/
def saturationIssues (m : ImageMetrics) : List Issue :=
  if m.saturation_mean < 0.1 then [Issue.DESATURATED] else []

/-- The color-cast `if/elif` chain of `diagnose` (`analysis.py` lines
94-98). -/
def colorCastIssues (m : ImageMetrics) : List Issue :=
  if m.color_temp < 0.3 then [Issue.VERY_WARM]
  else if 0.7 < m.color_temp then [Issue.VERY_COOL]
  else []

/-- The clipping checks of `diagnose` (`analysis.py` lines 100-109), guarded
by `sum(histogram) > 0`; `histogram[-1]` is the last bucket. -/
def clippingIssues (m : ImageMetrics) : List Issue :=
  let total := m.histogram.sum
  if 0 < total then
    (if (1 : ℚ) / 10 < (m.histogram.getD 0 0 : ℚ) / total
      then [Issue.SHADOW_CLIPPING ((m.histogram.getD 0 0 : ℚ) / total * 100)] else []) ++
      (if (1 : ℚ) / 10 < (m.histogram.getLastD 0 : ℚ) / total
        then [Issue.HIGHLIGHT_CLIPPING ((m.histogram.getLastD 0 : ℚ) / total * 100)] else [])
  else []

/-- `ImageMetrics.diagnose` (`analysis.py` lines 70-111): the `issues` list
grows group by group in source order — exposure, contrast, saturation,
color cast, clipping. -/
def ImageMetrics.diagnose (m : ImageMetrics) : List Issue :=
  exposureIssues m ++ contrastIssues m ++ saturationIssues m ++
    colorCastIssues m ++ clippingIssues m

/-- The `ComparisonResult` dataclass.  `histogram_correlation` lives in `ℝ`
because the source divides by `std_a * std_b`, square roots of the summed
squared deviations. -/
structure ComparisonResult where
  path_a : String
  path_b : String
  brightness_diff : ℚ
  contrast_diff : ℚ
  color_temp_diff : ℚ
  saturation_diff : ℚ
  histogram_correlation : ℝ

/-- Sum of squared deviations of a histogram from its own mean — the
quantity under the square root in the source's `std_a`/`std_b`
(`analysis.py` lines 298-299).  The source writes every index range and
divisor in terms of `n = len(ha)`; both histograms are always the 16-bucket
output of `analyze`, for which that coincides with each list's own length
used here. -/
def histSq (h : List ℕ) : ℚ :=
  let n : ℚ := h.length
  let m := (h.map fun x : ℕ => (x : ℚ)).sum / n
  (h.map fun x : ℕ => ((x : ℚ) - m) ^ 2).sum

/-- Histogram covariance term (`analysis.py` line 297):
`sum((ha[i]-mean_a) * (hb[i]-mean_b))` over the paired buckets. -/
def histCov (ha hb : List ℕ) : ℚ :=
  let na : ℚ := ha.length
  let nb : ℚ := hb.length
  let ma := (ha.map fun x : ℕ => (x : ℚ)).sum / na
  let mb := (hb.map fun x : ℕ => (x : ℚ)).sum / nb
  ((ha.zip hb).map fun p : ℕ × ℕ => ((p.1 : ℚ) - ma) * ((p.2 : ℚ) - mb)).sum

/-- Pearson correlation of two histograms (`analysis.py` lines 292-300):
`cov / (std_a * std_b) if std_a > 0 and std_b > 0 else 0`, with
`std = histSq ** 0.5` modelled by `Real.sqrt`; `std > 0` is equivalent to
`histSq > 0`. -/
noncomputable def histCorrelation (ha hb : List ℕ) : ℝ :=
  if 0 < histSq ha ∧ 0 < histSq hb then
    (histCov ha hb : ℝ) / (Real.sqrt (histSq ha) * Real.sqrt (histSq hb))
  else 0

/-- `compare` (`analysis.py` lines 281-310) applied to two already-decoded
images: signed `B - A` deltas and the histogram correlation. -/
noncomputable def compare (pxa : List (ℕ × ℕ × ℕ)) (wa ha : ℕ) (patha : String)
    (pxb : List (ℕ × ℕ × ℕ)) (wb hb : ℕ) (pathb : String) : ComparisonResult :=
  let a := analyze pxa wa ha patha
  let b := analyze pxb wb hb pathb
  { path_a := patha
    path_b := pathb
    brightness_diff := b.brightness_mean - a.brightness_mean
    contrast_diff := b.contrast_ratio - a.contrast_ratio
    color_temp_diff := b.color_temp - a.color_temp
    saturation_diff := b.saturation_mean - a.saturation_mean
    histogram_correlation := histCorrelation a.histogram b.histogram }

/-- The on-disk content of one file as the decoder sees it after chunk
parsing: the outcome of decompressing its IDAT stream and its IHDR fields. -/
structure PngFile where
  inflated : Except PyErr (List ℕ)
  width : ℕ
  height : ℕ
  colorType : ℕ

/-- `analyze` for one file of a directory: decode, then derive metrics. -/
def analyzeFile (name : String) (f : PngFile) : Except PyErr ImageMetrics :=
  (read_png_pixels f.inflated f.width f.height f.colorType).map
    fun r => analyze r.1 r.2.1 r.2.2 name

/-- The `*.png` files of a directory in sorted name order (`analysis.py`
line 318: `sorted(directory.glob("*.png"))`). -/
def sortedPngs (entries : List (String × PngFile)) : List (String × PngFile) :=
  (entries.filter fun e => e.1.endsWith ".png").mergeSort
    fun a b => decide (a.1 ≤ b.1)

/-- `analyze_directory` (`analysis.py` lines 313-324): fold over the sorted
`*.png` files, appending each successful analysis and turning each failure
into a warning (dropping it), never propagating the failure. -/
def analyze_directory (entries : List (String × PngFile)) : List ImageMetrics :=
  (sortedPngs entries).foldl
    (fun results e =>
      match analyzeFile e.1 e.2 with
      | Except.ok m => results ++ [m]
      | Except.error _ => results) []

/-- Sixteen gray levels, one per histogram bucket (each is the midpoint
`16k + 8`), used as a concrete test image. -/
def grays16 : List ℕ :=
  [8, 24, 40, 56, 72, 88, 104, 120, 136, 152, 168, 184, 200, 216, 232, 248]

/-- A 16×1 image whose pixels are the sixteen gray levels: its luminance
histogram is uniform (one pixel in every bucket). -/
def p16 : List (ℕ × ℕ × ℕ) := grays16.map fun v => (v, v, v)

/-- The decompressed scanline stream of `p16` as a 16×1 truecolor image:
filter byte 0 followed by the 48 pixel bytes. -/
def raw16 : List ℕ := 0 :: (grays16.map fun v => [v, v, v]).join

/-! ## Helper lemmas -/

theorem foldl_min_le_init (x : ℚ) (xs : List ℚ) : xs.foldl min x ≤ x := by
  induction xs generalizing x with
  | nil => exact le_refl x
  | cons y ys ih => exact le_trans (ih (min x y)) (min_le_left x y)

theorem init_le_foldl_max (x : ℚ) (xs : List ℚ) : x ≤ xs.foldl max x := by
  induction xs generalizing x with
  | nil => exact le_refl x
  | cons y ys ih => exact le_trans (le_max_left x y) (ih (max x y))

theorem listMin_le_listMax (l : List ℚ) : listMin l ≤ listMax l := by
  cases l with
  | nil => exact le_refl 0
  | cons x xs =>
      exact le_trans (foldl_min_le_init x xs) (init_le_foldl_max x xs)

/-! ## C8 -/

/-- C8: analyzing a valid 1×1 truecolor image whose single pixel is pure red
`(255,0,0)` — it decodes successfully, and the metrics have
`saturation_mean = 1`, `color_temp = 0` and `brightness_mean = 0.299 * 255`
(`= 76.245`). -/
theorem C8_red_pixel :
    read_png_pixels (Except.ok [0, 255, 0, 0]) 1 1 2 = Except.ok ([(255, 0, 0)], 1, 1) ∧
    (analyze [(255, 0, 0)] 1 1 "red.png").saturation_mean = 1 ∧
    (analyze [(255, 0, 0)] 1 1 "red.png").color_temp = 0 ∧
    (analyze [(255, 0, 0)] 1 1 "red.png").brightness_mean = 0.299 * 255 := by
  refine ⟨rfl, ?_, ?_, ?_⟩ <;> simp [analyze, saturation, luminance]

/-! ## C2 -/

/-- C2 counterexample: the filter-type byte 7 is not one of 0-4, yet
`read_png_pixels` does not fail — it silently decodes the row (as if the
filter were 0), so the claim "an unrecognized filter byte causes the decode
to fail with a FormatError" is false. -/
theorem C2_unknown_filter_counterexample :
    read_png_pixels (Except.ok [7, 5, 6, 7]) 1 1 2 = Except.ok ([(5, 6, 7)], 1, 1) := rfl

/-- C2 amended: a filter-type byte outside `{1, 2, 3, 4}` is silently treated
exactly like filter 0 (None): the row is left unfiltered and no error is
raised. -/
theorem C2_unknown_filter_amended (ft bpp : ℕ) (prev rawRow : List ℕ)
    (h1 : ft ≠ 1) (h2 : ft ≠ 2) (h3 : ft ≠ 3) (h4 : ft ≠ 4) :
    defilterRow ft bpp prev rawRow = defilterRow 0 bpp prev rawRow := by
  unfold defilterRow buildRow
  exact List.foldl_ext _ _ [] fun out i _ => by simp [defilterByte, h1, h2, h3, h4]

/-- C2 witness: the amended statement at the concrete filter byte 7. -/
theorem C2_unknown_filter_witness :
    (7 : ℕ) ≠ 1 ∧ defilterRow 7 3 [0, 0, 0] [5, 6, 7] = defilterRow 0 3 [0, 0, 0] [5, 6, 7] :=
  ⟨by decide,
    C2_unknown_filter_amended 7 3 [0, 0, 0] [5, 6, 7]
      (by decide) (by decide) (by decide) (by decide)⟩

/-! ## C4 -/

/-- C4 counterexample: a decompressed stream of 4 bytes for a 1×1
truecolor-with-alpha image (which needs `1*(1+1*4) = 5` bytes) — truncated —
does not fail with any error at all: `read_png_pixels` returns pixel data.
This refutes both "fails with a DecodeError" and "never returns pixel
data". -/
theorem C4_truncated_counterexample :
    read_png_pixels (Except.ok [0, 1, 2, 3]) 1 1 6 = Except.ok ([(1, 2, 3)], 1, 1) ∧
    [0, 1, 2, 3].length < 1 * (1 + 1 * bppOf 6) := ⟨rfl, by decide⟩

/-- C4 amended: a corrupt compressed payload fails with the decompression
error (the `DecodeError` of the taxonomy); but a decompressed stream shorter
than `height*(1 + width*bpp)` is not detected as such — it either raises an
untyped `IndexError` (shown for a 1×1 truecolor image with 2 of 4 bytes) or,
when only bytes past each pixel's first three are missing, silently returns
pixel data (shown for a 1×1 truecolor-with-alpha image with 4 of 5 bytes). -/
theorem C4_truncated_amended :
    (∀ (w h ct : ℕ), w ≠ 0 → h ≠ 0 →
      read_png_pixels (Except.error PyErr.zlibError) w h ct =
        Except.error PyErr.zlibError) ∧
    read_png_pixels (Except.ok [0, 10]) 1 1 2 = Except.error PyErr.indexError ∧
    read_png_pixels (Except.ok [0, 1, 2, 3]) 1 1 6 = Except.ok ([(1, 2, 3)], 1, 1) := by
  refine ⟨fun w h ct hw hh => ?_, rfl, rfl⟩
  simp only [read_png_pixels, hw, hh, or_self, false_or, or_false, if_false,
    ite_false, eq_self_iff_true]
  rfl

/-- C4 witness: the zlib-propagation part of the amended statement at
concrete dimensions. -/
theorem C4_truncated_witness :
    (1 : ℕ) ≠ 0 ∧
    read_png_pixels (Except.error PyErr.zlibError) 1 1 2 =
      Except.error PyErr.zlibError :=
  ⟨by decide, C4_truncated_amended.1 1 1 2 (by decide) (by decide)⟩

/-! ## C1 -/

/-- C1 counterexample: a 1×1 all-black image decodes successfully, yet its
`contrast_ratio = brightness_max / max(brightness_min, 1) = 0 / 1 = 0 < 1`,
so the claimed invariant `contrast_ratio ≥ 1` fails. -/
theorem C1_contrast_counterexample :
    read_png_pixels (Except.ok [0, 0, 0, 0]) 1 1 2 = Except.ok ([(0, 0, 0)], 1, 1) ∧
    (analyze [(0, 0, 0)] 1 1 "black.png").contrast_ratio < 1 := by
  refine ⟨rfl, ?_⟩
  simp [analyze, luminance, listMin, listMax]

/-- C1 amended: `contrast_ratio ≥ 1` holds exactly when the image has some
luminance reaching 1, i.e. when `brightness_max ≥ 1`; an image whose
truncated maximal luminance is 0 (e.g. all black) has `contrast_ratio = 0`. -/
theorem C1_contrast_amended (pixels : List (ℕ × ℕ × ℕ)) (w h : ℕ) (path : String)
    (hmax : 1 ≤ (analyze pixels w h path).brightness_max) :
    1 ≤ (analyze pixels w h path).contrast_ratio := by
  simp only [analyze] at hmax ⊢
  set bs := pixels.map luminance with hbs
  have hmono : (⌊listMin bs⌋ : ℤ) ≤ ⌊listMax bs⌋ :=
    Int.floor_le_floor (listMin_le_listMax bs)
  have hpos : (0 : ℚ) < max (⌊listMin bs⌋ : ℚ) 1 :=
    lt_of_lt_of_le zero_lt_one (le_max_right _ 1)
  rw [one_le_div hpos]
  refine max_le ?_ ?_
  · exact_mod_cast hmono
  · exact_mod_cast hmax

/-- C1 witness: the amended statement at the 1×1 pure-red image, whose
`brightness_max = ⌊76.245⌋ = 76 ≥ 1`. -/
theorem C1_contrast_witness :
    1 ≤ (analyze [(255, 0, 0)] 1 1 "red.png").brightness_max ∧
    1 ≤ (analyze [(255, 0, 0)] 1 1 "red.png").contrast_ratio := by
  have hmax : 1 ≤ (analyze [(255, 0, 0)] 1 1 "red.png").brightness_max := by
    simp only [analyze, List.map_cons, List.map_nil, listMax, List.foldl_nil]
    exact Int.le_floor.mpr (by norm_num [luminance])
  exact ⟨hmax, C1_contrast_amended [(255, 0, 0)] 1 1 "red.png" hmax⟩

/-! ## C7 -/

theorem exposure_spec (m : ImageMetrics) :
    (Issue.UNDEREXPOSED ∈ exposureIssues m ↔ m.brightness_mean < 30) ∧
    (Issue.DARK ∈ exposureIssues m ↔ 30 ≤ m.brightness_mean ∧ m.brightness_mean < 60) ∧
    (Issue.OVEREXPOSED ∈ exposureIssues m ↔ 220 < m.brightness_mean) ∧
    (Issue.BRIGHT ∈ exposureIssues m ↔ 180 < m.brightness_mean ∧ m.brightness_mean ≤ 220) := by
  unfold exposureIssues
  split_ifs with h1 h2 h3 h4 <;> simp_all <;>
    first
      | linarith
      | (constructor <;> first | linarith | (intro; linarith))

theorem mem_contrastIssues (m : ImageMetrics) (t : Issue) (ht : t ∈ contrastIssues m) :
    t = Issue.LOW_CONTRAST ∨ t = Issue.HIGH_CONTRAST := by
  unfold contrastIssues at ht
  split_ifs at ht <;> simp_all

theorem mem_saturationIssues (m : ImageMetrics) (t : Issue) (ht : t ∈ saturationIssues m) :
    t = Issue.DESATURATED := by
  unfold saturationIssues at ht
  split_ifs at ht <;> simp_all

theorem mem_colorCastIssues (m : ImageMetrics) (t : Issue) (ht : t ∈ colorCastIssues m) :
    t = Issue.VERY_WARM ∨ t = Issue.VERY_COOL := by
  unfold colorCastIssues at ht
  split_ifs at ht <;> simp_all

theorem mem_clippingIssues (m : ImageMetrics) (t : Issue) (ht : t ∈ clippingIssues m) :
    (∃ p, t = Issue.SHADOW_CLIPPING p) ∨ ∃ p, t = Issue.HIGHLIGHT_CLIPPING p := by
  simp only [clippingIssues] at ht
  split_ifs at ht <;> simp_all <;>
    rcases ht with h | h <;> [exact Or.inl ⟨_, h⟩; exact Or.inr ⟨_, h⟩]

theorem diagnose_mem_iff_exposure (m : ImageMetrics) (t : Issue)
    (h1 : t ≠ Issue.LOW_CONTRAST) (h2 : t ≠ Issue.HIGH_CONTRAST)
    (h3 : t ≠ Issue.DESATURATED) (h4 : t ≠ Issue.VERY_WARM) (h5 : t ≠ Issue.VERY_COOL)
    (h6 : ∀ p, t ≠ Issue.SHADOW_CLIPPING p) (h7 : ∀ p, t ≠ Issue.HIGHLIGHT_CLIPPING p) :
    t ∈ m.diagnose ↔ t ∈ exposureIssues m := by
  simp only [ImageMetrics.diagnose, List.mem_append]
  constructor
  · rintro ((((h | h) | h) | h) | h)
    · exact h
    · rcases mem_contrastIssues m t h with rfl | rfl
      · exact absurd rfl h1
      · exact absurd rfl h2
    · exact absurd (mem_saturationIssues m t h) h3
    · rcases mem_colorCastIssues m t h with rfl | rfl
      · exact absurd rfl h4
      · exact absurd rfl h5
    · rcases mem_clippingIssues m t h with ⟨p, rfl⟩ | ⟨p, rfl⟩
      · exact absurd rfl (h6 p)
      · exact absurd rfl (h7 p)
  · exact fun h => Or.inl (Or.inl (Or.inl (Or.inl h)))

/-- C7: `diagnose` emits `UNDEREXPOSED` exactly when `brightness_mean < 30`,
`DARK` exactly when `30 ≤ brightness_mean < 60`, `OVEREXPOSED` exactly when
`brightness_mean > 220`, `BRIGHT` exactly when `180 < brightness_mean ≤ 220`
(the conditions of the source's `if/elif` chain), and at most one of the four
tags is ever present. -/
theorem C7_diagnose (m : ImageMetrics) :
    (Issue.UNDEREXPOSED ∈ m.diagnose ↔ m.brightness_mean < 30) ∧
    (Issue.DARK ∈ m.diagnose ↔ 30 ≤ m.brightness_mean ∧ m.brightness_mean < 60) ∧
    (Issue.OVEREXPOSED ∈ m.diagnose ↔ 220 < m.brightness_mean) ∧
    (Issue.BRIGHT ∈ m.diagnose ↔ 180 < m.brightness_mean ∧ m.brightness_mean ≤ 220) ∧
    List.countP
      (fun t => decide (t = Issue.UNDEREXPOSED ∨ t = Issue.DARK ∨
        t = Issue.OVEREXPOSED ∨ t = Issue.BRIGHT)) m.diagnose ≤ 1 := by
  obtain ⟨hU, hD, hO, hB⟩ := exposure_spec m
  refine ⟨?_, ?_, ?_, ?_, ?_⟩
  · rw [diagnose_mem_iff_exposure m _ (by simp) (by simp) (by simp) (by simp) (by simp)
      (fun p => by simp) (fun p => by simp)]
    exact hU
  · rw [diagnose_mem_iff_exposure m _ (by simp) (by simp) (by simp) (by simp) (by simp)
      (fun p => by simp) (fun p => by simp)]
    exact hD
  · rw [diagnose_mem_iff_exposure m _ (by simp) (by simp) (by simp) (by simp) (by simp)
      (fun p => by simp) (fun p => by simp)]
    exact hO
  · rw [diagnose_mem_iff_exposure m _ (by simp) (by simp) (by simp) (by simp) (by simp)
      (fun p => by simp) (fun p => by simp)]
    exact hB
  · have hrest : List.countP
        (fun t => decide (t = Issue.UNDEREXPOSED ∨ t = Issue.DARK ∨
          t = Issue.OVEREXPOSED ∨ t = Issue.BRIGHT))
        (contrastIssues m ++ saturationIssues m ++ colorCastIssues m ++ clippingIssues m)
          = 0 := by
      rw [List.countP_eq_zero]
      intro t ht
      simp only [List.mem_append] at ht
      rcases ht with ((hc | hs) | hcc) | hcl
      · rcases mem_contrastIssues m t hc with rfl | rfl <;> simp
      · rw [mem_saturationIssues m t hs] ; simp
      · rcases mem_colorCastIssues m t hcc with rfl | rfl <;> simp
      · rcases mem_clippingIssues m t hcl with ⟨p, rfl⟩ | ⟨p, rfl⟩ <;> simp
    have hexp : List.countP
        (fun t => decide (t = Issue.UNDEREXPOSED ∨ t = Issue.DARK ∨
          t = Issue.OVEREXPOSED ∨ t = Issue.BRIGHT)) (exposureIssues m) ≤ 1 := by
      unfold exposureIssues
      split_ifs <;> simp [List.countP_cons]
    simp only [ImageMetrics.diagnose, List.append_assoc, List.countP_append]
    simp only [List.countP_append] at hrest
    omega

/-! ## C5 -/

theorem buildRow_succ (g : List ℕ → ℕ → ℕ) (n : ℕ) :
    buildRow g (n + 1) = buildRow g n ++ [g (buildRow g n) n] := by
  unfold buildRow
  rw [List.range_succ, List.foldl_append]
  rfl

theorem buildRow_length (g : List ℕ → ℕ → ℕ) (n : ℕ) : (buildRow g n).length = n := by
  induction n with
  | zero => rfl
  | succ k ih => rw [buildRow_succ] ; simp [ih]

theorem buildRow_get?_mono (g : List ℕ → ℕ → ℕ) {m n j : ℕ} (h : m ≤ n) (hj : j < m) :
    (buildRow g n).get? j = (buildRow g m).get? j := by
  induction n with
  | zero => omega
  | succ k ih =>
      rcases Nat.lt_or_ge m (k + 1) with hlt | hge
      · have hmk : m ≤ k := by omega
        rw [buildRow_succ, List.get?_append]
        · exact ih hmk
        · rw [buildRow_length] ; omega
      · have hmk : m = k + 1 := by omega
        subst hmk ; rfl

theorem buildRow_get?_eq (g : List ℕ → ℕ → ℕ) {n j : ℕ} (hj : j < n) :
    (buildRow g n).get? j = some (g (buildRow g j) j) := by
  have h1 : (buildRow g n).get? j = (buildRow g (j + 1)).get? j :=
    buildRow_get?_mono g hj (Nat.lt_succ_self j)
  have h2 := List.get?_concat_length (buildRow g j) (g (buildRow g j) j)
  rw [buildRow_length] at h2
  rw [h1, buildRow_succ, h2]

theorem buildRow_getD (g : List ℕ → ℕ → ℕ) {n j : ℕ} (hj : j < n) :
    (buildRow g n).getD j 0 = g (buildRow g j) j := by
  show ((buildRow g n).get? j).getD 0 = _
  rw [buildRow_get?_eq g hj]
  rfl

theorem buildRow_getD_mono (g : List ℕ → ℕ → ℕ) {m n j : ℕ} (h : m ≤ n) (hj : j < m) :
    (buildRow g n).getD j 0 = (buildRow g m).getD j 0 := by
  show ((buildRow g n).get? j).getD 0 = ((buildRow g m).get? j).getD 0
  rw [buildRow_get?_mono g h hj]

/-- The conditional the source uses to pick the Paeth predictor computes
exactly the first minimizer of `|p - candidate|` in the order left, up,
upper-left. -/
theorem paethPredictor_eq_spec (l u ul : ℕ) :
    paethPredictor l u ul = paethSpecChoice l u ul := by
  simp only [paethPredictor, paethSpecChoice, min_def]
  split_ifs <;> omega

/-- C5: for a row defiltered with filter type 4 and every in-range byte
index `i`, the output byte is the filtered byte plus the Paeth predictor
modulo 256, where the predictor is the `|p - candidate|`-minimizing value
among left (`out[i-bpp]`, 0 if `i < bpp`), up (`prev[i]`) and upper-left
(`prev[i-bpp]`, 0 if `i < bpp`), ties broken left, then up, then upper-left
(`paethSpecChoice`).  `bpp > 0` holds for every value `bppOf` produces. -/
theorem C5_paeth (bpp : ℕ) (prev rawRow : List ℕ) (i : ℕ)
    (hbpp : 0 < bpp) (hi : i < rawRow.length) :
    (defilterRow 4 bpp prev rawRow).getD i 0 =
      (rawRow.getD i 0 +
        paethSpecChoice
          (if bpp ≤ i then (defilterRow 4 bpp prev rawRow).getD (i - bpp) 0 else 0)
          (prev.getD i 0)
          (if bpp ≤ i then prev.getD (i - bpp) 0 else 0)) % 256 := by
  unfold defilterRow
  rw [buildRow_getD _ hi]
  by_cases hb : bpp ≤ i
  · rw [buildRow_getD_mono (fun out j => defilterByte 4 bpp prev out j (rawRow.getD j 0))
      (le_of_lt hi) (show i - bpp < i by omega)]
    simp only [defilterByte, if_pos hb]
    norm_num [paethPredictor_eq_spec]
  · simp only [defilterByte, if_neg hb]
    norm_num [paethPredictor_eq_spec]

/-- C5 witness: the Paeth statement at a concrete row. -/
theorem C5_paeth_witness :
    (0 : ℕ) < 3 ∧ (0 : ℕ) < [1, 2, 3].length ∧
    (defilterRow 4 3 [10, 20, 30] [1, 2, 3]).getD 0 0 =
      ([1, 2, 3].getD 0 0 +
        paethSpecChoice
          (if 3 ≤ 0 then (defilterRow 4 3 [10, 20, 30] [1, 2, 3]).getD (0 - 3) 0 else 0)
          ([10, 20, 30].getD 0 0)
          (if 3 ≤ 0 then [10, 20, 30].getD (0 - 3) 0 else 0)) % 256 :=
  ⟨by decide, by decide, C5_paeth 3 [10, 20, 30] [1, 2, 3] 0 (by decide) (by decide)⟩

/-! ## C6 -/

theorem histIdx_lt (b : ℚ) : histIdx b < 16 :=
  lt_of_le_of_lt (min_le_right _ 15) (by norm_num)

theorem getD_set_self (l : List ℕ) (i : ℕ) (a : ℕ) (h : i < l.length) :
    (l.set i a).getD i 0 = a := by
  show ((l.set i a).get? i).getD 0 = a
  rw [List.get?_set_eq_of_lt a h]
  rfl

theorem getD_set_ne (l : List ℕ) (i j : ℕ) (a : ℕ) (h : i ≠ j) :
    (l.set i a).getD j 0 = l.getD j 0 := by
  show ((l.set i a).get? j).getD 0 = (l.get? j).getD 0
  rw [List.get?_set_ne a l h]

theorem sum_set_inc (l : List ℕ) (i : ℕ) (h : i < l.length) :
    (l.set i (l.getD i 0 + 1)).sum = l.sum + 1 := by
  induction l generalizing i with
  | nil => simp at h
  | cons x xs ih =>
      cases i with
      | zero => simp [List.getD]; omega
      | succ k =>
          simp only [List.set, List.sum_cons, List.getD_cons_succ]
          rw [ih k (by simpa using h)]
          omega

theorem histFold_length (bs : List ℚ) (acc : List ℕ) (hacc : acc.length = 16) :
    (bs.foldl (fun h b => h.set (histIdx b) (h.getD (histIdx b) 0 + 1)) acc).length = 16 := by
  induction bs generalizing acc with
  | nil => exact hacc
  | cons b bs ih => exact ih _ (by rw [List.length_set]; exact hacc)

theorem histFold_getD (bs : List ℚ) (i : ℕ) (acc : List ℕ) (hacc : acc.length = 16) :
    (bs.foldl (fun h b => h.set (histIdx b) (h.getD (histIdx b) 0 + 1)) acc).getD i 0 =
      acc.getD i 0 + bs.countP (fun b => decide (histIdx b = i)) := by
  induction bs generalizing acc with
  | nil => simp
  | cons b bs ih =>
      rw [List.foldl_cons, ih _ (by rw [List.length_set]; exact hacc), List.countP_cons]
      by_cases hbi : histIdx b = i
      · rw [hbi, getD_set_self _ _ _ (by rw [hacc]; exact lt_of_eq_of_lt hbi.symm (histIdx_lt b))]
        simp [hbi]
        omega
      · rw [getD_set_ne _ _ _ _ hbi]
        simp [hbi]

theorem histFold_sum (bs : List ℚ) (acc : List ℕ) (hacc : acc.length = 16) :
    (bs.foldl (fun h b => h.set (histIdx b) (h.getD (histIdx b) 0 + 1)) acc).sum =
      acc.sum + bs.length := by
  induction bs generalizing acc with
  | nil => simp
  | cons b bs ih =>
      rw [List.foldl_cons, ih _ (by rw [List.length_set]; exact hacc)]
      rw [sum_set_inc _ _ (by rw [hacc]; exact histIdx_lt b)]
      simp
      omega

theorem exbind_ok {α β : Type} {a : Except PyErr α} {f : α → Except PyErr β} {b : β} :
    a >>= f = Except.ok b ↔ ∃ v, a = Except.ok v ∧ f v = Except.ok b := by
  cases a <;> simp [Bind.bind, Except.bind]

theorem extractPixels_ok_length (row : List ℕ) (bpp : ℕ) :
    ∀ (n x : ℕ) (l : List (ℕ × ℕ × ℕ)),
      extractPixels row bpp n x = Except.ok l → l.length = n := by
  intro n
  induction n with
  | zero =>
      intro x l h
      simp only [extractPixels] at h
      cases h
      rfl
  | succ k ih =>
      intro x l h
      simp only [extractPixels, exbind_ok, pure, Except.pure] at h
      obtain ⟨r, _, g, _, b, _, rest, hrest, hl⟩ := h
      cases hl
      simp [ih (x + 1) rest hrest]

theorem processRows_ok_length (raw : List ℕ) (width bpp : ℕ) :
    ∀ (hh pos : ℕ) (prev : List ℕ) (acc l : List (ℕ × ℕ × ℕ)),
      processRows raw width bpp hh pos prev acc = Except.ok l →
        l.length = acc.length + hh * width := by
  intro hh
  induction hh with
  | zero =>
      intro pos prev acc l h
      simp only [processRows] at h
      cases h
      simp
  | succ k ih =>
      intro pos prev acc l h
      simp only [processRows, exbind_ok] at h
      obtain ⟨ft, _, px, hpx, hrec⟩ := h
      have h1 := ih _ _ _ _ hrec
      have h2 := extractPixels_ok_length _ _ _ _ _ hpx
      simp only [List.length_append] at h1
      rw [h1, h2]
      ring

/-- A successful decode returns the declared dimensions and exactly
`width * height` pixels. -/
theorem read_png_pixels_ok (inflated : Except PyErr (List ℕ)) (w h ct : ℕ)
    (px : List (ℕ × ℕ × ℕ)) (w' h' : ℕ)
    (hok : read_png_pixels inflated w h ct = Except.ok (px, w', h')) :
    w' = w ∧ h' = h ∧ px.length = w * h := by
  by_cases hz : w = 0 ∨ h = 0
  · simp [read_png_pixels, hz, throw, throwThe, MonadExceptOf.throw,
      Bind.bind, Except.bind] at hok
  · simp only [read_png_pixels, hz, if_false, ite_false, exbind_ok] at hok
    obtain ⟨u, -, pxl, hpxl, res, hres, heq⟩ := hok
    simp only [pure, Except.pure, Except.ok.injEq, Prod.mk.injEq] at heq
    obtain ⟨e1, e2, e3⟩ := heq
    subst e1
    subst e2
    subst e3
    have hlen := processRows_ok_length pxl w (bppOf ct) h 0 _ [] res hres
    simp only [List.length_nil, Nat.zero_add] at hlen
    exact ⟨rfl, rfl, by rw [hlen, Nat.mul_comm]⟩

theorem getD_replicate_zero (n i : ℕ) : (List.replicate n (0 : ℕ)).getD i 0 = 0 := by
  induction n generalizing i with
  | zero => rfl
  | succ k ih => cases i <;> simp [List.replicate, ih]

/-- C6: for every successfully analyzed image, the histogram has exactly 16
buckets, bucket `i` counts exactly the pixels whose luminance `L` satisfies
`min(floor(L/16), 15) = i` (so each pixel lands in exactly one bucket), and
the bucket counts sum to `width * height`. -/
theorem C6_histogram (inflated : Except PyErr (List ℕ)) (w h ct : ℕ)
    (px : List (ℕ × ℕ × ℕ)) (w' h' : ℕ) (path : String)
    (hok : read_png_pixels inflated w h ct = Except.ok (px, w', h')) :
    (analyze px w' h' path).histogram.length = 16 ∧
    (∀ i, (analyze px w' h' path).histogram.getD i 0 =
      (px.map luminance).countP fun b => decide (histIdx b = i)) ∧
    (analyze px w' h' path).histogram.sum = w' * h' := by
  obtain ⟨hw, hh, hlen⟩ := read_png_pixels_ok inflated w h ct px w' h' hok
  subst hw
  subst hh
  simp only [analyze, histogramOf]
  refine ⟨histFold_length _ _ (by simp), fun i => ?_, ?_⟩
  · rw [histFold_getD _ _ _ (by simp), getD_replicate_zero]
    simp
  · rw [histFold_sum _ _ (by simp)]
    simp [hlen]

/-- C6 witness: the histogram facts at the decoded 1×1 red image. -/
theorem C6_histogram_witness :
    read_png_pixels (Except.ok [0, 255, 0, 0]) 1 1 2 = Except.ok ([(255, 0, 0)], 1, 1) ∧
    ((analyze [(255, 0, 0)] 1 1 "red.png").histogram.length = 16 ∧
     (∀ i, (analyze [(255, 0, 0)] 1 1 "red.png").histogram.getD i 0 =
       ([(255, 0, 0)].map luminance).countP fun b => decide (histIdx b = i)) ∧
     (analyze [(255, 0, 0)] 1 1 "red.png").histogram.sum = 1 * 1) :=
  ⟨rfl, C6_histogram (Except.ok [0, 255, 0, 0]) 1 1 2 [(255, 0, 0)] 1 1 "red.png" rfl⟩

/-! ## C10 -/

theorem pyGet_ge (l : List ℕ) (i : ℕ) (h : l.length ≤ i) :
    pyGet l i = Except.error PyErr.indexError := by
  unfold pyGet
  rw [List.get?_eq_none.mpr h]

theorem pyGet_ok_exists (l : List ℕ) (i : ℕ) (h : i < l.length) :
    ∃ v, pyGet l i = Except.ok v := by
  unfold pyGet
  rw [List.get?_eq_get h]
  exact ⟨_, rfl⟩

/-- With one byte per pixel, the accesses `row[x]`, `row[x+1]`, `row[x+2]` of
pixel extraction always run past a row holding one byte per remaining pixel:
the extraction raises `IndexError`. -/
theorem extract_bpp1_err (row : List ℕ) :
    ∀ n x, 1 ≤ n → row.length ≤ x + n + 1 →
      extractPixels row 1 n x = Except.error PyErr.indexError := by
  intro n
  induction n with
  | zero => intro x h1 h2; omega
  | succ k ih =>
      intro x h1 h2
      by_cases hx : row.length ≤ x
      · simp [extractPixels, Nat.mul_one, pyGet_ge _ _ hx, Bind.bind, Except.bind]
      · by_cases hx1 : row.length ≤ x + 1
        · obtain ⟨v, hv⟩ := pyGet_ok_exists row x (by omega)
          simp [extractPixels, Nat.mul_one, hv, pyGet_ge _ _ hx1, Bind.bind, Except.bind]
        · by_cases hx2 : row.length ≤ x + 2
          · obtain ⟨v, hv⟩ := pyGet_ok_exists row x (by omega)
            obtain ⟨v2, hv2⟩ := pyGet_ok_exists row (x + 1) (by omega)
            simp [extractPixels, Nat.mul_one, hv, hv2, pyGet_ge _ _ hx2,
              Bind.bind, Except.bind]
          · have hk : 1 ≤ k := by omega
            obtain ⟨v, hv⟩ := pyGet_ok_exists row x (by omega)
            obtain ⟨v2, hv2⟩ := pyGet_ok_exists row (x + 1) (by omega)
            obtain ⟨v3, hv3⟩ := pyGet_ok_exists row (x + 2) (by omega)
            have hrec := ih (x + 1) hk (by omega)
            simp [extractPixels, Nat.mul_one, hv, hv2, hv3, hrec,
              Bind.bind, Except.bind]

theorem defilterRow_length (ft bpp : ℕ) (prev rawRow : List ℕ) :
    (defilterRow ft bpp prev rawRow).length = rawRow.length :=
  buildRow_length _ _

/-- C10: for a structurally valid PNG whose color type is neither 2 nor 6
(so `bpp = 1`), with `width ≥ 1`, `height ≥ 1` and enough decompressed data
for the first row, `read_png_pixels` raises `IndexError` while extracting
that row's pixels (it reads `row[offset+1]` and `row[offset+2]` past the
1-byte-per-pixel row) and never returns a pixel sequence. -/
theorem C10_bpp1 (raw : List ℕ) (w h ct : ℕ)
    (hct2 : ct ≠ 2) (hct6 : ct ≠ 6) (hw : 1 ≤ w) (hh : 1 ≤ h)
    (hdata : 1 + w ≤ raw.length) :
    read_png_pixels (Except.ok raw) w h ct = Except.error PyErr.indexError := by
  have hbpp : bppOf ct = 1 := by simp [bppOf, hct2, hct6]
  obtain ⟨h', rfl⟩ : ∃ k, h = k + 1 := ⟨h - 1, by omega⟩
  have hzf : ¬(w = 0 ∨ h' + 1 = 0) := by omega
  obtain ⟨ft, hft⟩ := pyGet_ok_exists raw 0 (by omega)
  have hw0 : ¬(w = 0) := by omega
  have hext := extract_bpp1_err
    (defilterRow ft 1 (List.replicate w 0) (List.take w raw.tail)) w 0 hw
    (by rw [defilterRow_length, List.length_take]; omega)
  simp [read_png_pixels, hzf, hw0, hbpp, processRows, hft, hext,
    Bind.bind, Except.bind, Functor.map, Except.map, pure, Except.pure]

/-- C10 witness: a grayscale-typed (color type 0) 2×1 image with a full
first row raises `IndexError`. -/
theorem C10_bpp1_witness :
    (0 : ℕ) ≠ 2 ∧ (0 : ℕ) ≠ 6 ∧ (1 : ℕ) ≤ 2 ∧ (1 : ℕ) ≤ 1 ∧
    1 + 2 ≤ [0, 7, 9].length ∧
    read_png_pixels (Except.ok [0, 7, 9]) 2 1 0 = Except.error PyErr.indexError :=
  ⟨by decide, by decide, by decide, by decide, by decide,
    C10_bpp1 [0, 7, 9] 2 1 0 (by decide) (by decide) (by decide) (by decide) (by decide)⟩

/-! ## C9 -/

theorem foldl_try_eq_filterMap (l : List (String × PngFile)) :
    ∀ acc, l.foldl (fun results e => match analyzeFile e.1 e.2 with
      | Except.ok m => results ++ [m]
      | Except.error _ => results) acc
      = acc ++ (l.filterMap fun e => (analyzeFile e.1 e.2).toOption) := by
  induction l with
  | nil => intro acc; simp
  | cons e es ih =>
      intro acc
      rw [List.foldl_cons, List.filterMap_cons]
      cases h : analyzeFile e.1 e.2 with
      | ok m => simp [h, ih, Except.toOption]
      | error er => simp [h, ih, Except.toOption]

/-- C9: `analyze_directory` processes exactly the `*.png` entries of the
directory in sorted name order (`sortedPngs`), keeps each successful
analysis in that order, and drops exactly the entries whose analysis fails —
one bad file never aborts the run (in the model all failures are `Except`
errors, all of which the fold catches). -/
theorem C9_analyze_directory (entries : List (String × PngFile)) :
    analyze_directory entries =
      (sortedPngs entries).filterMap fun e => (analyzeFile e.1 e.2).toOption := by
  unfold analyze_directory
  rw [foldl_try_eq_filterMap]
  simp

/-! ## C3 -/

theorem luminance_gray (v : ℕ) : luminance (v, v, v) = v := by
  simp [luminance]
  ring_nf

theorem histIdx_natCast (n : ℕ) : histIdx (n : ℚ) = min (n / 16) 15 := by
  unfold histIdx
  have h16 : ((16 : ℚ)) = ((16 : ℕ) : ℚ) := by norm_num
  rw [h16, Rat.floor_natCast_div_natCast]
  omega

theorem histogramOf_map_natCast (l : List ℕ) :
    histogramOf (l.map fun v : ℕ => (v : ℚ)) =
      l.foldl (fun h v => h.set (min (v / 16) 15) (h.getD (min (v / 16) 15) 0 + 1))
        (List.replicate 16 0) := by
  unfold histogramOf
  have key : ∀ (l : List ℕ) (acc : List ℕ),
      List.foldl (fun h b => h.set (histIdx b) (h.getD (histIdx b) 0 + 1)) acc
          (l.map fun v : ℕ => (v : ℚ)) =
        List.foldl (fun h v => h.set (min (v / 16) 15) (h.getD (min (v / 16) 15) 0 + 1))
          acc l := by
    intro l
    induction l with
    | nil => intro acc; rfl
    | cons x xs ih =>
        intro acc
        simp only [List.map_cons, List.foldl_cons, histIdx_natCast, ih]
  exact key l _

theorem p16_map_luminance : p16.map luminance = grays16.map fun v : ℕ => (v : ℚ) := by
  unfold p16
  rw [List.map_map]
  exact List.map_congr_left fun v _ => luminance_gray v

/-- The 16 mid-bucket gray levels give a uniform histogram. -/
theorem p16_hist : histogramOf (p16.map luminance) = List.replicate 16 1 := by
  rw [p16_map_luminance, histogramOf_map_natCast]
  decide

theorem histSq_replicate_one : histSq (List.replicate 16 1) = 0 := by
  simp [histSq, List.map_replicate, List.sum_replicate]
  norm_num

theorem zip_self_eq (l : List ℕ) : l.zip l = l.map fun x => (x, x) := by
  induction l with
  | nil => rfl
  | cons x xs ih => simp [ih]

theorem histCov_self (h : List ℕ) : histCov h h = histSq h := by
  simp only [histCov, histSq, zip_self_eq, List.map_map]
  apply congrArg List.sum
  apply List.map_congr_left
  intro x _
  simp
  ring

/-- Self-correlation of a histogram: 1 when it has positive variance, 0 when
its variance is zero. -/
theorem histCorrelation_self (h : List ℕ) :
    histCorrelation h h = if 0 < histSq h then (1 : ℝ) else 0 := by
  unfold histCorrelation
  by_cases hs : 0 < histSq h
  · rw [if_pos ⟨hs, hs⟩, if_pos hs, histCov_self]
    have h0 : (0 : ℝ) ≤ (histSq h : ℝ) := by exact_mod_cast le_of_lt hs
    rw [Real.mul_self_sqrt h0]
    exact div_self (by exact_mod_cast ne_of_gt hs)
  · rw [if_neg (fun hc => hs hc.1), if_neg hs]

/-- C3 counterexample: the 16×1 image `p16` (one pixel per histogram bucket)
decodes successfully, yet comparing it with itself yields
`histogram_correlation = 0`, not `1.0` — its uniform histogram has zero
variance, so the source's `std_a > 0 and std_b > 0` guard returns 0. -/
theorem C3_self_compare_counterexample :
    read_png_pixels (Except.ok raw16) 16 1 2 = Except.ok (p16, 16, 1) ∧
    (compare p16 16 1 "a.png" p16 16 1 "b.png").histogram_correlation = 0 ∧
    (0 : ℝ) ≠ 1 := by
  refine ⟨rfl, ?_, by norm_num⟩
  show histCorrelation (analyze p16 16 1 "a.png").histogram
    (analyze p16 16 1 "b.png").histogram = 0
  have hh1 : (analyze p16 16 1 "a.png").histogram = List.replicate 16 1 := by
    simp only [analyze]
    exact p16_hist
  have hh2 : (analyze p16 16 1 "b.png").histogram = List.replicate 16 1 := by
    simp only [analyze]
    exact p16_hist
  rw [hh1, hh2, histCorrelation_self, if_neg]
  rw [histSq_replicate_one]
  norm_num

/-- C3 amended: comparing any image with itself yields all-zero deltas, and
`histogram_correlation = 1.0` exactly when the histogram has positive
variance; when the histogram is uniform (zero variance) the correlation is
0 instead. -/
theorem C3_self_compare_amended (px : List (ℕ × ℕ × ℕ)) (w h : ℕ) (pa pb : String) :
    (compare px w h pa px w h pb).brightness_diff = 0 ∧
    (compare px w h pa px w h pb).contrast_diff = 0 ∧
    (compare px w h pa px w h pb).color_temp_diff = 0 ∧
    (compare px w h pa px w h pb).saturation_diff = 0 ∧
    (compare px w h pa px w h pb).histogram_correlation =
      (if 0 < histSq (analyze px w h pa).histogram then (1 : ℝ) else 0) := by
  refine ⟨?_, ?_, ?_, ?_, ?_⟩ <;> simp only [compare, analyze] <;>
    first
      | exact sub_self _
      | exact histCorrelation_self _

end McCli
